import Mathlib

/-!
Verification of the dosprobe control-plane core, shallowly embedded from the
TypeScript sources: the segmented-address model, the GDB remote-debug client,
the QEMU and DOSBox backends, the capture pipeline, golden-file comparison,
and the WebSocket memory-watch layer.

JavaScript numbers are modelled as naturals; where the source applies a
bitwise operator, JS first coerces the operand through ToInt32 (the low 32
bits of the integer, interpreted in two's complement).  For the nonnegative
operands that arise here the observable result of each such expression is a
function of the bit pattern n % 2^32, which is how it is rendered below.
-/

namespace DosProbe

/-- A segment:offset pair, from SegOff in types.ts. -/
structure SegOff where
  segment : Nat
  offset : Nat
deriving Repr, DecidableEq

/-- A DOS address carrying both representations, from DosAddress in types.ts. -/
structure DosAddress where
  linear : Nat
  segOff : SegOff
deriving Repr, DecidableEq

/-- address.ts segOffToLinear: ((seg & 0xffff) << 4) + (off & 0xffff).
JS coerces each bitwise operand via ToInt32; for a nonnegative seg the
pattern is seg % 2^32 and the mask 0xffff selects its low 16 bits, so the
masked value is below 2^16 and the left shift by 4 cannot wrap. -/
def segOffToLinear (seg off : Nat) : Nat :=
  (((seg % 2 ^ 32) &&& 0xffff) <<< 4) + ((off % 2 ^ 32) &&& 0xffff)

/-- address.ts linearToSegOff: segment = (linear >> 4) & 0xffff,
offset = linear & 0x000f.  For a nonnegative linear the JS signed shift
followed by the 16-bit mask returns the same bits as an unsigned shift of
the pattern linear % 2^32 (the sign-extension bits sit above bit 15), and
the 4-bit mask reads the low nibble of the pattern. -/
def linearToSegOff (linear : Nat) : SegOff :=
  { segment := ((linear % 2 ^ 32) >>> 4) &&& 0xffff
    offset := (linear % 2 ^ 32) &&& 0x000f }

/-- Value of a hex digit character, accepting both cases (as JS parseInt
with radix 16 does). -/
def hexDigitVal? (c : Char) : Option Nat :=
  if '0' ≤ c ∧ c ≤ '9' then some (c.toNat - '0'.toNat)
  else if 'a' ≤ c ∧ c ≤ 'f' then some (c.toNat - 'a'.toNat + 10)
  else if 'A' ≤ c ∧ c ≤ 'F' then some (c.toNat - 'A'.toNat + 10)
  else none

def isHexDigit (c : Char) : Bool := (hexDigitVal? c).isSome

/-- Value of a decimal digit character. -/
def decDigitVal? (c : Char) : Option Nat :=
  if '0' ≤ c ∧ c ≤ '9' then some (c.toNat - '0'.toNat) else none

def isDecDigit (c : Char) : Bool := (decDigitVal? c).isSome

/-- Lowercase hex digit character, as produced by Number.prototype.toString(16). -/
def hexChar (n : Nat) : Char :=
  if n < 10 then Char.ofNat ('0'.toNat + n) else Char.ofNat ('a'.toNat + (n - 10))

/-- n.toString(16) for a nonnegative integer: lowercase hex digits, no
leading zeros (a single "0" for zero). -/
def natToHex (n : Nat) : List Char :=
  if _h : n < 16 then [hexChar n]
  else natToHex (n / 16) ++ [hexChar (n % 16)]
decreasing_by exact Nat.div_lt_self (by omega) (by omega)

/-- String.prototype.toUpperCase over the characters. -/
def jsToUpper (s : List Char) : List Char := s.map Char.toUpper

/-- String.prototype.padStart(4, "0"). -/
def padStart4 (s : List Char) : List Char := List.replicate (4 - s.length) '0' ++ s

/-- address.ts formatSegOff: hex4(seg) ++ ":" ++ hex4(off), uppercase,
zero-padded to four digits. -/
def formatSegOff (seg off : Nat) : List Char :=
  padStart4 (jsToUpper (natToHex seg)) ++ ':' :: padStart4 (jsToUpper (natToHex off))

/-- The optional 0x / 0X marker that JS parseInt with radix 16 skips. -/
def dropHexMark (s : List Char) : List Char :=
  match s with
  | c0 :: c1 :: rest => if c0 = '0' ∧ (c1 = 'x' ∨ c1 = 'X') then rest else s
  | _ => s

/-- JS parseInt(s, 16): skip an optional 0x marker, read the longest run of
hex digits, NaN (none) when that run is empty.  (Leading whitespace and a
sign are not modelled; the address grammar never produces them.) -/
def parseIntHex (s : List Char) : Option Nat :=
  let ds := (dropHexMark s).takeWhile isHexDigit
  if ds.isEmpty then none
  else some (ds.foldl (fun a c => 16 * a + (hexDigitVal? c).getD 0) 0)

/-- JS parseInt(s, 10): longest run of decimal digits, NaN (none) when empty. -/
def parseIntDec (s : List Char) : Option Nat :=
  let ds := s.takeWhile isDecDigit
  if ds.isEmpty then none
  else some (ds.foldl (fun a c => 10 * a + (decDigitVal? c).getD 0) 0)

/-- String.prototype.split(":"). -/
def splitOnColon : List Char → List (List Char)
  | [] => [[]]
  | c :: rest =>
    if c = ':' then [] :: splitOnColon rest
    else
      match splitOnColon rest with
      | [] => [[c]]
      | g :: gs => (c :: g) :: gs

/-- Does the literal start with 0x or 0X, as tested by parseAddress. -/
def startsWith0x (s : List Char) : Bool :=
  match s with
  | c0 :: c1 :: _ => c0 == '0' && (c1 == 'x' || c1 == 'X')
  | _ => false

/-- address.ts parseAddress.  A colon selects the seg:off branch (parseInt
radix 16 on the first two split parts); otherwise the literal is linear,
hex when 0x-marked and decimal otherwise.  A parse yielding NaN is
rendered as none. -/
def parseAddress (input : List Char) : Option DosAddress :=
  if ':' ∈ input then
    match splitOnColon input with
    | segStr :: offStr :: _ =>
      match parseIntHex segStr, parseIntHex offStr with
      | some segment, some offset =>
        some { linear := segOffToLinear segment offset
               segOff := { segment := segment, offset := offset } }
      | _, _ => none
    | _ => none
  else
    let lin? := if startsWith0x input then parseIntHex input else parseIntDec input
    lin?.map fun linear => { linear := linear, segOff := linearToSegOff linear }

/-! ### GDB remote-debug client (gdb-client.ts) -/

/-- gdb-client.ts CHUNK_SIZE. -/
def CHUNK_SIZE : Nat := 4096

/-- The ProtocolError raised by GdbClient.readMemory, carrying the failing
chunk's address (named in the message) and the raw reply. -/
structure GdbMemError where
  addr : Nat
  resp : List Char
deriving Repr, DecidableEq

/-- Buffer.from(s, "hex"): decode pairs of hex digits into bytes, stopping
at the first incomplete or non-hex pair. -/
def hexDecode : List Char → List Nat
  | a :: b :: rest =>
    match hexDigitVal? a, hexDigitVal? b with
    | some x, some y => (16 * x + y) :: hexDecode rest
    | _, _ => []
  | _ => []

/-- The loop of GdbClient.readMemory.  The wire is abstracted as resp,
mapping a request (address, length) — sent as m<addr>,<len> — to the reply
payload.  Returns the requests issued, in order, paired with the decoded
concatenation or the error for an E-prefixed reply. -/
def gdbReadMemoryGo (resp : Nat → Nat → List Char) (addr length offset : Nat) :
    List (Nat × Nat) × Except GdbMemError (List Nat) :=
  if _h : offset < length then
    let remaining := min CHUNK_SIZE (length - offset)
    let r := resp (addr + offset) remaining
    if r.head? = some 'E' then
      ([(addr + offset, remaining)], .error ⟨addr + offset, r⟩)
    else
      let rest := gdbReadMemoryGo resp addr length (offset + CHUNK_SIZE)
      ((addr + offset, remaining) :: rest.1, rest.2.map fun tail => hexDecode r ++ tail)
  else ([], .ok [])
termination_by length - offset
decreasing_by simp only [CHUNK_SIZE]; omega

/-- GdbClient.readMemory(addr, length): chunked at CHUNK_SIZE bytes per
m-request starting at offset 0. -/
def gdbReadMemory (resp : Nat → Nat → List Char) (addr length : Nat) :
    List (Nat × Nat) × Except GdbMemError (List Nat) :=
  gdbReadMemoryGo resp addr length 0

/-- The number of chunks readMemory uses for a given length. -/
def numChunks (length : Nat) : Nat := (length + (CHUNK_SIZE - 1)) / CHUNK_SIZE

/-! ### Golden comparison (util.ts compareWithGolden) -/

/-- util.ts GoldenComparison.  The content-hash codomain is abstract; the
missing-golden sentinel (the empty string in the source) is rendered as
none, a real hash as some. -/
structure GoldenComparison (H : Type) where
  isMatch : Bool
  goldenChecksum : Option H
  actualChecksum : H
  firstDiffOffset : Option Nat
  goldenByte : Option Nat
  actualByte : Option Nat
deriving Repr, DecidableEq

/-- The first-difference scan of compareWithGolden: the for loop over the
common prefix, returning the index and the two differing bytes. -/
def firstDiff : List Nat → List Nat → Option (Nat × Nat × Nat)
  | g :: gr, a :: ar =>
    if g ≠ a then some (0, g, a)
    else (firstDiff gr ar).map fun p => (p.1 + 1, p.2.1, p.2.2)
  | _, _ => none

/-- util.ts compareWithGolden.  The filesystem is abstracted: golden? is
the golden file's bytes when it exists; sha256 is the hash parameter. -/
def compareWithGolden {H : Type} [DecidableEq H] (hash : List Nat → H)
    (golden? : Option (List Nat)) (actualData : List Nat) : GoldenComparison H :=
  match golden? with
  | none =>
    { isMatch := false, goldenChecksum := none, actualChecksum := hash actualData
      firstDiffOffset := none, goldenByte := none, actualByte := none }
  | some goldenData =>
    let goldenChecksum := hash goldenData
    let actualChecksum := hash actualData
    if goldenChecksum = actualChecksum then
      { isMatch := true, goldenChecksum := some goldenChecksum
        actualChecksum := actualChecksum
        firstDiffOffset := none, goldenByte := none, actualByte := none }
    else
      match firstDiff goldenData actualData with
      | some (i, gb, ab) =>
        { isMatch := false, goldenChecksum := some goldenChecksum
          actualChecksum := actualChecksum, firstDiffOffset := some i
          goldenByte := some gb, actualByte := some ab }
      | none =>
        { isMatch := false, goldenChecksum := some goldenChecksum
          actualChecksum := actualChecksum
          firstDiffOffset := some (min goldenData.length actualData.length)
          goldenByte := none, actualByte := none }

/-! ### Session-based (DOSBox) backend primitives (dosbox-backend.ts) -/

/-- types.ts BreakpointType. -/
inductive BreakpointType where
  | execution
  | memory
  | interrupt
deriving Repr, DecidableEq

/-- types.ts Breakpoint.  The interrupt and ah fields are omitted; the
backends under verification never set them. -/
structure Breakpoint where
  id : Nat
  type : BreakpointType
  address : DosAddress
  enabled : Bool
deriving Repr, DecidableEq

/-- DosboxBackend.writeMemory: throws. -/
def dosboxWriteMemory : Except String Unit :=
  .error "DOSBox-X does not support live memory writes from host"

/-- DosboxBackend.screenshot: throws. -/
def dosboxScreenshot : Except String (List Nat × String) :=
  .error "Screenshots require interactive DOSBox-X session (Ctrl+F5)"

/-- DosboxBackend.setBreakpoint: throws. -/
def dosboxSetBreakpoint : Except String Breakpoint :=
  .error "Breakpoints in DOSBox-X are set via debug scripts, not live"

/-- DosboxBackend.removeBreakpoint: a silent no-op. -/
def dosboxRemoveBreakpoint : Except String Unit := .ok ()

/-- DosboxBackend.listBreakpoints: returns the empty list. -/
def dosboxListBreakpoints : Except String (List Breakpoint) := .ok []

/-- DosboxBackend.pause: a silent no-op. -/
def dosboxPause : Except String Unit := .ok ()

/-- DosboxBackend.resume: a silent no-op. -/
def dosboxResume : Except String Unit := .ok ()

/-- DosboxBackend.step: throws. -/
def dosboxStep : Except String Unit :=
  .error "Stepping in DOSBox-X requires a debug session"

/-- DosboxBackend.saveSnapshot: throws. -/
def dosboxSaveSnapshot : Except String Unit :=
  .error "Save states in DOSBox-X are created interactively"

/-- DosboxBackend.loadSnapshot: throws. -/
def dosboxLoadSnapshot : Except String Unit :=
  .error "Save states in DOSBox-X are loaded interactively"

/-! ### WebSocket memory-watch layer (ws/handlers/memory-watch.ts, ws/index.ts)

The content hash (the shared sha256 helper, external to the sources under
verification) is a parameter.  Clients are numbered; a watch's owner field
records the ws argument captured by its poll-timer closure. -/

/-- One entry of the module-level watches map in memory-watch.ts. -/
structure Watch (H : Type) where
  owner : Nat
  address : String
  size : Nat
  intervalMs : Nat
  lastHash : Option H
  inFlight : Bool
deriving Repr, DecidableEq

/-- memory-watch.ts module state: the watches map and watchesSuspended. -/
structure WatchState (H : Type) where
  watches : List (String × Watch H)
  suspended : Bool
deriving Repr, DecidableEq

/-- memory-watch.ts MIN_INTERVAL_MS. -/
def MIN_INTERVAL_MS : Nat := 200

/-- stopMemoryWatch: clear the timer and delete the map entry. -/
def stopMemoryWatch {H} (s : WatchState H) (id : String) : WatchState H :=
  { s with watches := s.watches.eraseP fun p => p.1 == id }

/-- startMemoryWatch: stop any existing watch with the same id, then
register a fresh entry with the interval clamped to MIN_INTERVAL_MS, a
null lastHash and a clear in-flight flag. -/
def startMemoryWatch {H} (s : WatchState H) (owner : Nat) (id : String)
    (address : String) (size intervalMs : Nat) : WatchState H :=
  let s := stopMemoryWatch s id
  { s with watches := s.watches ++
      [(id, { owner := owner, address := address, size := size
              intervalMs := max intervalMs MIN_INTERVAL_MS
              lastHash := none, inFlight := false })] }

/-- stopAllWatches. -/
def stopAllWatches {H} (s : WatchState H) : WatchState H :=
  { s with watches := [] }

/-- suspendAllWatches. -/
def suspendAllWatches {H} (s : WatchState H) : WatchState H :=
  { s with suspended := true }

/-- invalidateAllWatches: null every lastHash. -/
def invalidateAllWatches {H} (s : WatchState H) : WatchState H :=
  { s with watches := s.watches.map fun p => (p.1, { p.2 with lastHash := none }) }

/-- resumeAllWatches(invalidateHashes): clear the suspension flag, then
invalidate the hash caches when asked (the default). -/
def resumeAllWatches {H} (s : WatchState H) (invalidateHashes : Bool) : WatchState H :=
  let s := { s with suspended := false }
  if invalidateHashes then invalidateAllWatches s else s

/-- A frame pushed to the owning client: the memory:update JSON metadata
or the binary payload that follows it. -/
inductive Frame (H : Type) where
  | json (id : String) (address : String) (size : Nat) (hash : H)
  | binary (data : List Nat)
deriving Repr, DecidableEq

/-- One firing of a watch's interval timer.  read? is the outcome of
backend.readMemory for this poll (none = the read threw; the catch block
swallows it).  A missing watch, an in-flight poll or global suspension
short-circuits.  On a successful read the watch emits the metadata frame
followed by the binary frame exactly when the hash differs from lastHash,
recording the new hash first. -/
def pollTick {H} [DecidableEq H] (hash : List Nat → H) (s : WatchState H)
    (id : String) (read? : Option (List Nat)) : WatchState H × List (Frame H) :=
  match s.watches.lookup id with
  | none => (s, [])
  | some w =>
    if w.inFlight || s.suspended then (s, [])
    else
      match read? with
      | none => (s, [])
      | some data =>
        let h := hash data
        if some h ≠ w.lastHash then
          ({ s with watches := s.watches.map fun p =>
               if p.1 = id then (p.1, { p.2 with lastHash := some h }) else p },
           [Frame.json id w.address data.length h, Frame.binary data])
        else (s, [])

/-- The snapshot hooks that attachWebSocket installs on the backend:
snapshot:loading suspends all watches; snapshot:loaded and
snapshot:load-failed resume them with hash invalidation. -/
def onBackendEvent {H} (s : WatchState H) (event : String) : WatchState H :=
  if event = "snapshot:loading" then suspendAllWatches s
  else if event = "snapshot:loaded" ∨ event = "snapshot:load-failed" then
    resumeAllWatches s true
  else s

/-- The state touched by a connection close in ws/index.ts: the
ChannelManager subscription pairs (client, channel) and the module-level
watch state. -/
structure ServerState (H : Type) where
  watchState : WatchState H
  subscriptions : List (Nat × String)
deriving Repr, DecidableEq

/-- ChannelManager.removeClient: drop the client from every channel set. -/
def removeClient {H} (s : ServerState H) (client : Nat) : ServerState H :=
  { s with subscriptions := s.subscriptions.filter fun p => !(p.1 == client) }

/-- The ws close handler registered by attachWebSocket: it only calls
channels.removeClient(ws). -/
def onClientClose {H} (s : ServerState H) (client : Nat) : ServerState H :=
  removeClient s client

/-! ### QEMU backend breakpoints against the GDB stub (qemu-backend.ts) -/

/-- Joint state of QemuBackend's breakpoint table (bp-id number ↦ linear
address, plus the nextBpId counter) and of the execution breakpoints
registered in the GDB stub.  The stub is external (QEMU itself): it is
modelled as the multiset of addresses sent in a Z0 packet and not yet
cancelled by z0 — QEMU's stub keeps duplicate inserts and removes one
match per z0 — and, following the spec, a snapshot load clears the
registrations. -/
structure QemuBpState where
  table : List (Nat × Nat)
  stub : List Nat
  nextBpId : Nat
deriving Repr, DecidableEq

/-- The breakpoint-relevant operations of the socket-based backend.  The
Bool inputs are the outcomes of the external requests: stubOk is Z0
answering OK, loadOk is loadvm succeeding, contOk the trailing cont. -/
inductive QemuOp where
  | set (type : BreakpointType) (addr : Nat) (stubOk : Bool)
  | remove (id : Nat)
  | load (loadOk contOk : Bool)
deriving Repr, DecidableEq

/-- QemuBackend.setBreakpoint: non-execution kinds throw before any
effect; then Z0 is issued — a non-OK reply throws with nothing registered,
an OK reply registers the address in the stub and records bp_<nextBpId> in
the table. -/
def qemuSetBreakpoint (s : QemuBpState) (type : BreakpointType) (addr : Nat)
    (stubOk : Bool) : QemuBpState :=
  if type ≠ BreakpointType.execution then s
  else if stubOk then
    { table := s.table ++ [(s.nextBpId, addr)], stub := s.stub ++ [addr]
      nextBpId := s.nextBpId + 1 }
  else s

/-- QemuBackend.removeBreakpoint: for a known id, z0 removes one matching
stub registration (the reply is not checked) and the table entry is
deleted; unknown ids are ignored. -/
def qemuRemoveBreakpoint (s : QemuBpState) (id : Nat) : QemuBpState :=
  match s.table.lookup id with
  | some addr =>
    { s with table := s.table.eraseP (fun p => p.1 == id), stub := s.stub.erase addr }
  | none => s

/-- QemuBackend.loadSnapshot's effect on the breakpoint state: when loadvm
succeeds, breakpoints.clear() runs (before cont, so a failing cont still
clears) and the stub registrations are gone with the restored machine
(modelled from the spec: clearing happens on snapshot load); a failing
loadvm throws with both untouched. -/
def qemuLoadSnapshotBps (s : QemuBpState) (loadOk : Bool) : QemuBpState :=
  if loadOk then { s with table := [], stub := [] } else s

def qemuApply (s : QemuBpState) : QemuOp → QemuBpState
  | QemuOp.set type addr stubOk => qemuSetBreakpoint s type addr stubOk
  | QemuOp.remove id => qemuRemoveBreakpoint s id
  | QemuOp.load loadOk _ => qemuLoadSnapshotBps s loadOk

/-- A fresh QemuBackend: empty table, empty stub, nextBpId = 1. -/
def qemuInit : QemuBpState := { table := [], stub := [], nextBpId := 1 }

def qemuRun (ops : List QemuOp) : QemuBpState := ops.foldl qemuApply qemuInit

/-! ### QemuBackend.loadSnapshot event ordering (qemu-backend.ts) -/

/-- Observable actions of QemuBackend.loadSnapshot, in program order. -/
inductive QemuAct where
  | setStatus (status : String)
  | emitStatus (status : String)
  | emitEvent (event : String)
  | qmpCommand (command : String)
  | clearBreakpoints
deriving Repr, DecidableEq

/-- QemuBackend.loadSnapshot as a trace of observable actions, driven by
the outcomes of the two QMP requests (loadvm, then cont).  The Bool result
is true when the call returns normally and false when the error is
re-raised (after emitting snapshot:load-failed). -/
def qemuLoadSnapshotTrace (loadvmOk contOk : Bool) : List QemuAct × Bool :=
  let before := [QemuAct.setStatus "paused", QemuAct.emitStatus "paused",
    QemuAct.emitEvent "snapshot:loading", QemuAct.qmpCommand "loadvm"]
  if loadvmOk then
    let afterLoad := before ++ [QemuAct.clearBreakpoints, QemuAct.qmpCommand "cont"]
    if contOk then
      (afterLoad ++ [QemuAct.setStatus "running", QemuAct.emitStatus "running",
        QemuAct.emitEvent "snapshot:loaded"], true)
    else
      (afterLoad ++ [QemuAct.emitEvent "snapshot:load-failed"], false)
  else
    (before ++ [QemuAct.emitEvent "snapshot:load-failed"], false)

/-! ### Capture pipeline control flow (capture-pipeline.ts) -/

/-- types.ts CaptureRequest, restricted to the fields that drive control
flow in CapturePipeline.run.  The three capture booleans model the
request.captureX !== false tests. -/
structure PipelineRequest where
  snapshot : Option String
  keys : List String
  breakpoint : Option Nat
  captureFramebuffer : Bool
  captureScreenshot : Bool
  captureRegisters : Bool
  memoryRanges : List (String × Nat)
deriving Repr, DecidableEq

/-- Backend and filesystem calls observable in CapturePipeline.run. -/
inductive PipelineAct where
  | loadSnapshot
  | sendKeys
  | setBreakpoint
  | resume
  | waitStop
  | removeBreakpoint
  | pause
  | readFramebuffer
  | writeFile (name : String)
  | screenshot
  | readRegisters
  | readRange (idx : Nat)
deriving Repr, DecidableEq

/-- Outcomes of the calls CapturePipeline.run makes, an environment in
which the pipeline is interpreted: each field is what the corresponding
backend primitive or writeFileSync would do if invoked. -/
structure PipelineEnv (E : Type) where
  loadSnapshotR : Except E Unit
  sendKeysR : Except E Unit
  setBreakpointR : Except E Unit
  resumeR : Except E Unit
  waitStopR : Except E Unit
  removeBreakpointR : Except E Unit
  pauseR : Except E Unit
  fbReadR : Except E Unit
  screenshotR : Except E Unit
  regReadR : Except E Unit
  rangeReadR : Nat → Except E Unit
  writeFileR : String → Except E Unit

/-- Sequencing of two traced stages: the second runs only when the first
succeeded, and the traces concatenate. -/
def seqSteps {E} (a : List PipelineAct × Except E Unit)
    (k : Unit → List PipelineAct × Except E Unit) :
    List PipelineAct × Except E Unit :=
  match a.2 with
  | Except.error e => (a.1, Except.error e)
  | Except.ok _ => (a.1 ++ (k ()).1, (k ()).2)

/-- run, step 1: load the snapshot when requested. -/
def stageSnapshot {E} (env : PipelineEnv E) (req : PipelineRequest) :
    List PipelineAct × Except E Unit :=
  match req.snapshot with
  | some _ => ([PipelineAct.loadSnapshot], env.loadSnapshotR)
  | none => ([], Except.ok ())

/-- run, step 2: inject keys when a non-empty sequence is given. -/
def stageKeys {E} (env : PipelineEnv E) (req : PipelineRequest) :
    List PipelineAct × Except E Unit :=
  if req.keys.isEmpty then ([], Except.ok ())
  else ([PipelineAct.sendKeys], env.sendKeysR)

/-- run, step 3: with a breakpoint, set it, resume, wait for the stop and
remove it; otherwise pause the backend for a consistent capture. -/
def stageBreak {E} (env : PipelineEnv E) (req : PipelineRequest) :
    List PipelineAct × Except E Unit :=
  match req.breakpoint with
  | some _ =>
    seqSteps ([PipelineAct.setBreakpoint], env.setBreakpointR) fun _ =>
    seqSteps ([PipelineAct.resume], env.resumeR) fun _ =>
    seqSteps ([PipelineAct.waitStop], env.waitStopR) fun _ =>
    ([PipelineAct.removeBreakpoint], env.removeBreakpointR)
  | none => ([PipelineAct.pause], env.pauseR)

/-- run, step 4: framebuffer read and artifact write, unless opted out. -/
def stageFramebuffer {E} (env : PipelineEnv E) (req : PipelineRequest) :
    List PipelineAct × Except E Unit :=
  if req.captureFramebuffer then
    seqSteps ([PipelineAct.readFramebuffer], env.fbReadR) fun _ =>
    ([PipelineAct.writeFile "framebuffer"], env.writeFileR "framebuffer")
  else ([], Except.ok ())

/-- run, step 5: screenshot and artifact write, unless opted out. -/
def stageScreenshot {E} (env : PipelineEnv E) (req : PipelineRequest) :
    List PipelineAct × Except E Unit :=
  if req.captureScreenshot then
    seqSteps ([PipelineAct.screenshot], env.screenshotR) fun _ =>
    ([PipelineAct.writeFile "screenshot"], env.writeFileR "screenshot")
  else ([], Except.ok ())

/-- run, step 6: register read and artifact write, unless opted out. -/
def stageRegisters {E} (env : PipelineEnv E) (req : PipelineRequest) :
    List PipelineAct × Except E Unit :=
  if req.captureRegisters then
    seqSteps ([PipelineAct.readRegisters], env.regReadR) fun _ =>
    ([PipelineAct.writeFile "registers"], env.writeFileR "registers")
  else ([], Except.ok ())

/-- run, step 7: the extra memory ranges, each a read then a write to the
caller-named file. -/
def stageRanges {E} (env : PipelineEnv E) :
    List (String × Nat) → Nat → List PipelineAct × Except E Unit
  | [], _ => ([], Except.ok ())
  | (name, _) :: rest, idx =>
    seqSteps ([PipelineAct.readRange idx], env.rangeReadR idx) fun _ =>
    seqSteps ([PipelineAct.writeFile name], env.writeFileR name) fun _ =>
    stageRanges env rest (idx + 1)

/-- CapturePipeline.run, as the sequence of its steps followed by the
final backend.resume. -/
def pipelineRun {E} (env : PipelineEnv E) (req : PipelineRequest) :
    List PipelineAct × Except E Unit :=
  seqSteps (stageSnapshot env req) fun _ =>
  seqSteps (stageKeys env req) fun _ =>
  seqSteps (stageBreak env req) fun _ =>
  seqSteps (stageFramebuffer env req) fun _ =>
  seqSteps (stageScreenshot env req) fun _ =>
  seqSteps (stageRegisters env req) fun _ =>
  seqSteps (stageRanges env req.memoryRanges 0) fun _ =>
  ([PipelineAct.resume], env.resumeR)

/-! ### Theorems: address model (C1, C2) -/

theorem and_mask16 (x : Nat) : x &&& 0xffff = x % 2 ^ 16 :=
  Nat.and_pow_two_sub_one_eq_mod x 16

theorem and_mask4 (x : Nat) : x &&& 0x000f = x % 2 ^ 4 :=
  Nat.and_pow_two_sub_one_eq_mod x 4

/-- C1 (amended): for every linear address below 2^20, linearToSegOff
computes segment = (L >> 4) & 0xffff and offset = L & 0xf, and
segOffToLinear maps the pair back to L, so the pair and the stored linear
of the resulting DosAddress agree.  (For L ≥ 2^20 the segment mask drops
the high bits and the round trip loses them; see the counterexample.) -/
theorem linearToSegOff_segOffToLinear_roundtrip (L : Nat) (hL : L < 2 ^ 20) :
    (linearToSegOff L).segment = (L >>> 4) &&& 0xffff ∧
    (linearToSegOff L).offset = L &&& 0x000f ∧
    segOffToLinear (linearToSegOff L).segment (linearToSegOff L).offset = L := by
  have h32 : L < 2 ^ 32 := lt_of_lt_of_le hL (by norm_num)
  have hmod : L % 2 ^ 32 = L := Nat.mod_eq_of_lt h32
  have hseg : (linearToSegOff L).segment = L / 2 ^ 4 := by
    have hdiv : L / 2 ^ 4 < 2 ^ 16 := by omega
    simp only [linearToSegOff, hmod, Nat.shiftRight_eq_div_pow, and_mask16]
    exact Nat.mod_eq_of_lt hdiv
  have hoff : (linearToSegOff L).offset = L % 2 ^ 4 := by
    simp only [linearToSegOff, hmod, and_mask4]
  refine ⟨?_, ?_, ?_⟩
  · simp only [linearToSegOff, hmod]
  · simp only [linearToSegOff, hmod]
  · rw [hseg, hoff]
    have hq : L / 2 ^ 4 < 2 ^ 16 := by omega
    have hr : L % 2 ^ 4 < 2 ^ 16 := by omega
    have hq32 : L / 2 ^ 4 % 2 ^ 32 = L / 2 ^ 4 := Nat.mod_eq_of_lt (by omega)
    have hr32 : L % 2 ^ 4 % 2 ^ 32 = L % 2 ^ 4 := Nat.mod_eq_of_lt (by omega)
    simp only [segOffToLinear, hq32, hr32, and_mask16,
      Nat.mod_eq_of_lt hq, Nat.mod_eq_of_lt hr, Nat.shiftLeft_eq]
    omega

/-- C1 witness: the round-trip theorem applied to the Mode-13h framebuffer
address 0xA0000. -/
theorem linearToSegOff_roundtrip_witness :
    segOffToLinear (linearToSegOff 0xA0000).segment (linearToSegOff 0xA0000).offset
      = 0xA0000 :=
  (linearToSegOff_segOffToLinear_roundtrip 0xA0000 (by norm_num)).2.2

/-- C1 counterexample: the claim quantifies over every linear address, but
at L = 0x100000 the segment mask discards bit 20, the pair becomes
0000:0000, and the round trip returns 0 rather than L. -/
theorem linearToSegOff_roundtrip_counterexample :
    segOffToLinear (linearToSegOff 0x100000).segment (linearToSegOff 0x100000).offset
      = 0 ∧ (0x100000 : Nat) ≠ 0 := by
  constructor
  · rfl
  · decide

theorem hexDigit_upper_val : ∀ d < 16, hexDigitVal? (Char.toUpper (hexChar d)) = some d := by
  decide

theorem hexDigit_upper_isHex : ∀ d < 16, isHexDigit (Char.toUpper (hexChar d)) = true := by
  decide

theorem natToHex_elem (n : Nat) : ∀ c ∈ natToHex n, ∃ d, d < 16 ∧ c = hexChar d := by
  induction n using natToHex.induct with
  | case1 n h =>
    intro c hc
    rw [natToHex, dif_pos h] at hc
    exact ⟨n, h, (List.mem_singleton.mp hc).symm ▸ rfl⟩
  | case2 n h ih =>
    intro c hc
    rw [natToHex, dif_neg h] at hc
    rcases List.mem_append.mp hc with h1 | h2
    · exact ih c h1
    · exact ⟨n % 16, Nat.mod_lt _ (by omega), (List.mem_singleton.mp h2)⟩

theorem jsToUpper_natToHex_isHex (n : Nat) :
    ∀ c ∈ jsToUpper (natToHex n), isHexDigit c = true := by
  intro c hc
  rcases List.mem_map.mp hc with ⟨c0, hc0, rfl⟩
  rcases natToHex_elem n c0 hc0 with ⟨d, hd, rfl⟩
  exact hexDigit_upper_isHex d hd

theorem padStart4_isHex (s : List Char) (h : ∀ c ∈ s, isHexDigit c = true) :
    ∀ c ∈ padStart4 s, isHexDigit c = true := by
  intro c hc
  rcases List.mem_append.mp hc with h1 | h2
  · rw [List.eq_of_mem_replicate h1]; decide
  · exact h c h2

theorem hexFoldl_natToHex (n : Nat) : ∀ a : Nat,
    (jsToUpper (natToHex n)).foldl (fun a c => 16 * a + (hexDigitVal? c).getD 0) a
      = a * 16 ^ (natToHex n).length + n := by
  induction n using natToHex.induct with
  | case1 n h =>
    intro a
    rw [natToHex, dif_pos h]
    simp [jsToUpper, hexDigit_upper_val n h]
    omega
  | case2 n h ih =>
    intro a
    rw [natToHex, dif_neg h]
    simp only [jsToUpper] at ih ⊢
    simp only [List.map_append, List.foldl_append, List.map_cons,
      List.map_nil, List.foldl_cons, List.foldl_nil, List.length_append,
      List.length_cons, List.length_nil]
    rw [ih a]
    rw [hexDigit_upper_val (n % 16) (Nat.mod_lt _ (by omega))]
    simp only [Option.getD_some]
    rw [pow_succ]
    have := Nat.div_add_mod n 16
    ring_nf
    omega

theorem hexFoldl_replicate_zero (k : Nat) : ∀ a : Nat,
    (List.replicate k '0').foldl (fun a c => 16 * a + (hexDigitVal? c).getD 0) a
      = a * 16 ^ k := by
  induction k with
  | zero => intro a; simp
  | succ k ih =>
    intro a
    rw [List.replicate_succ, List.foldl_cons, ih]
    have h0 : (hexDigitVal? '0').getD 0 = 0 := by decide
    rw [h0, pow_succ]
    ring

theorem parseIntHex_padStart4_natToHex (n : Nat) :
    parseIntHex (padStart4 (jsToUpper (natToHex n))) = some n := by
  have hhex : ∀ c ∈ padStart4 (jsToUpper (natToHex n)), isHexDigit c = true :=
    padStart4_isHex _ (jsToUpper_natToHex_isHex n)
  have hdrop : dropHexMark (padStart4 (jsToUpper (natToHex n)))
      = padStart4 (jsToUpper (natToHex n)) := by
    unfold dropHexMark
    split
    case h_2 => rfl
    case h_1 c0 c1 rest heq =>
      rw [if_neg]
      rintro ⟨rfl, hx⟩
      have h1 : isHexDigit c1 = true := by
        apply hhex; rw [heq]; exact List.mem_cons_of_mem _ (List.mem_cons_self _ _)
      rcases hx with rfl | rfl <;> simp [isHexDigit, hexDigitVal?] at h1
  have htake : (padStart4 (jsToUpper (natToHex n))).takeWhile isHexDigit
      = padStart4 (jsToUpper (natToHex n)) :=
    List.takeWhile_eq_self_iff.mpr hhex
  have hne : natToHex n ≠ [] := by
    rw [natToHex]
    split <;> simp
  have hne2 : padStart4 (jsToUpper (natToHex n)) ≠ [] := by
    unfold padStart4 jsToUpper
    simp [hne]
  unfold parseIntHex
  rw [hdrop, htake, if_neg (by simpa [List.isEmpty_iff] using hne2)]
  unfold padStart4
  rw [List.foldl_append, hexFoldl_replicate_zero, zero_mul, hexFoldl_natToHex]
  simp

theorem splitOnColon_no_colon (s : List Char) (h : ':' ∉ s) : splitOnColon s = [s] := by
  induction s with
  | nil => rfl
  | cons c rest ih =>
    have hc : ¬(c = ':') := fun hcc => h (hcc ▸ List.mem_cons_self _ _)
    have hr : ':' ∉ rest := fun hm => h (List.mem_cons_of_mem _ hm)
    rw [splitOnColon, if_neg hc, ih hr]

theorem splitOnColon_append (s t : List Char) (h : ':' ∉ s) :
    splitOnColon (s ++ ':' :: t) = s :: splitOnColon t := by
  induction s with
  | nil => simp [splitOnColon]
  | cons c rest ih =>
    have hc : ¬(c = ':') := fun hcc => h (hcc ▸ List.mem_cons_self _ _)
    have hr : ':' ∉ rest := fun hm => h (List.mem_cons_of_mem _ hm)
    rw [List.cons_append, splitOnColon, if_neg hc, ih hr]

theorem no_colon_of_isHex (s : List Char) (h : ∀ c ∈ s, isHexDigit c = true) :
    ':' ∉ s := by
  intro hm
  have := h ':' hm
  simp [isHexDigit, hexDigitVal?] at this

/-- C2: parsing the formatted seg:off string yields a DosAddress whose
linear is (seg << 4) + off, for any 16-bit seg and off. -/
theorem parseAddress_formatSegOff (seg off : Nat) (hs : seg < 2 ^ 16) (ho : off < 2 ^ 16) :
    (parseAddress (formatSegOff seg off)).map DosAddress.linear
      = some ((seg <<< 4) + off) := by
  set s1 := padStart4 (jsToUpper (natToHex seg)) with hs1
  set s2 := padStart4 (jsToUpper (natToHex off)) with hs2
  have hhex1 : ∀ c ∈ s1, isHexDigit c = true :=
    padStart4_isHex _ (jsToUpper_natToHex_isHex seg)
  have hhex2 : ∀ c ∈ s2, isHexDigit c = true :=
    padStart4_isHex _ (jsToUpper_natToHex_isHex off)
  have hnc1 : ':' ∉ s1 := no_colon_of_isHex _ hhex1
  have hnc2 : ':' ∉ s2 := no_colon_of_isHex _ hhex2
  have hmem : ':' ∈ formatSegOff seg off := by
    unfold formatSegOff
    exact List.mem_append.mpr (Or.inr (List.mem_cons_self _ _))
  have hsplit : splitOnColon (formatSegOff seg off) = [s1, s2] := by
    unfold formatSegOff
    rw [splitOnColon_append _ _ hnc1, splitOnColon_no_colon _ hnc2]
  have hp1 : parseIntHex s1 = some seg := parseIntHex_padStart4_natToHex seg
  have hp2 : parseIntHex s2 = some off := parseIntHex_padStart4_natToHex off
  have hlin : segOffToLinear seg off = (seg <<< 4) + off := by
    have hs32 : seg % 2 ^ 32 = seg := Nat.mod_eq_of_lt (by omega)
    have ho32 : off % 2 ^ 32 = off := Nat.mod_eq_of_lt (by omega)
    simp only [segOffToLinear, hs32, ho32, and_mask16,
      Nat.mod_eq_of_lt hs, Nat.mod_eq_of_lt ho]
  unfold parseAddress
  rw [if_pos hmem, hsplit]
  simp [hp1, hp2, hlin]

/-- C2 witness: the round trip at seg = 0x1234, off = 0xABCD. -/
theorem parseAddress_formatSegOff_witness :
    (parseAddress (formatSegOff 0x1234 0xABCD)).map DosAddress.linear
      = some ((0x1234 <<< 4) + 0xABCD) :=
  parseAddress_formatSegOff 0x1234 0xABCD (by norm_num) (by norm_num)

/-! ### Theorems: golden comparison (C7) -/

theorem firstDiff_none_iff (g a : List Nat) :
    firstDiff g a = none ↔
      g.take (min g.length a.length) = a.take (min g.length a.length) := by
  induction g generalizing a with
  | nil => cases a <;> simp [firstDiff]
  | cons g0 gr ih =>
    cases a with
    | nil => simp [firstDiff]
    | cons a0 ar =>
      simp only [firstDiff, List.length_cons, Nat.succ_min_succ, List.take_succ_cons]
      by_cases h0 : g0 = a0
      · simp [h0, ih ar, Option.map_eq_none]
      · simp [h0]

theorem firstDiff_some_spec (g a : List Nat) (i gb ab : Nat)
    (h : firstDiff g a = some (i, gb, ab)) :
    g.get? i = some gb ∧ a.get? i = some ab ∧ gb ≠ ab
      ∧ ∀ j < i, g.get? j = a.get? j := by
  induction g generalizing a i with
  | nil => cases a <;> simp [firstDiff] at h
  | cons g0 gr ih =>
    cases a with
    | nil => simp [firstDiff] at h
    | cons a0 ar =>
      by_cases h0 : g0 = a0
      · rw [show firstDiff (g0 :: gr) (a0 :: ar)
            = (firstDiff gr ar).map (fun p => (p.1 + 1, p.2.1, p.2.2)) from by
          simp [firstDiff, h0]] at h
        rcases Option.map_eq_some'.mp h with ⟨⟨i', gb', ab'⟩, hfd, hp⟩
        cases hp
        rcases ih ar i' hfd with ⟨h1, h2, h3, h4⟩
        refine ⟨h1, h2, h3, ?_⟩
        intro j hj
        cases j with
        | zero => simp [h0]
        | succ j' =>
          simp only [List.get?_cons_succ]
          exact h4 j' (by omega)
      · rw [show firstDiff (g0 :: gr) (a0 :: ar) = some (0, g0, a0) from by
          simp [firstDiff, h0]] at h
        cases Option.some.inj h
        exact ⟨rfl, rfl, h0, by omega⟩

theorem firstDiff_isSome_of_ne (g a : List Nat) (hlen : g.length = a.length)
    (hne : g ≠ a) : firstDiff g a ≠ none := by
  intro hn
  apply hne
  have htake := (firstDiff_none_iff g a).mp hn
  rwa [hlen, min_self, ← hlen, List.take_length, hlen, List.take_length] at htake

theorem firstDiff_isSome_of_prefix_diff (g a : List Nat) (j : Nat)
    (hj : j < min g.length a.length) (hne : g.get? j ≠ a.get? j) :
    firstDiff g a ≠ none := by
  intro hn
  apply hne
  have htake := (firstDiff_none_iff g a).mp hn
  have := congrArg (fun l => l.get? j) htake
  simp only [List.get?_eq_getElem?] at this ⊢
  rwa [List.getElem?_take_of_lt hj, List.getElem?_take_of_lt hj] at this

/-- C7 (amended): compareWithGolden matches exactly when the golden exists
and its bytes equal the actual bytes (hashes being collision-free); both
hashes are reported whenever the golden exists; whenever a byte
difference exists within the common prefix — lengths equal or not, and in
particular whenever the contents differ at equal lengths — the first such
index and both bytes at it are reported; when the shorter file is a
prefix of the longer the reported offset is the shorter length; a missing
golden yields a mismatch with an empty goldenChecksum and the actual
hash. -/
theorem compareWithGolden_spec {H : Type} [DecidableEq H] (hash : List Nat → H)
    (hinj : Function.Injective hash) (golden? : Option (List Nat)) (actual : List Nat) :
    ((compareWithGolden hash golden? actual).isMatch = true ↔ golden? = some actual)
    ∧ (∀ g, golden? = some g →
        (compareWithGolden hash golden? actual).goldenChecksum = some (hash g)
        ∧ (compareWithGolden hash golden? actual).actualChecksum = hash actual)
    ∧ (∀ g, golden? = some g →
        (∃ j, j < min g.length actual.length ∧ g.get? j ≠ actual.get? j) →
        ∃ i gb ab,
          (compareWithGolden hash golden? actual).firstDiffOffset = some i
          ∧ (compareWithGolden hash golden? actual).goldenByte = some gb
          ∧ (compareWithGolden hash golden? actual).actualByte = some ab
          ∧ g.get? i = some gb ∧ actual.get? i = some ab ∧ gb ≠ ab
          ∧ ∀ j < i, g.get? j = actual.get? j)
    ∧ (∀ g, golden? = some g → g ≠ actual → g.length = actual.length →
        ∃ i gb ab,
          (compareWithGolden hash golden? actual).firstDiffOffset = some i
          ∧ (compareWithGolden hash golden? actual).goldenByte = some gb
          ∧ (compareWithGolden hash golden? actual).actualByte = some ab
          ∧ g.get? i = some gb ∧ actual.get? i = some ab ∧ gb ≠ ab
          ∧ ∀ j < i, g.get? j = actual.get? j)
    ∧ (∀ g, golden? = some g → g ≠ actual →
        g.take (min g.length actual.length) = actual.take (min g.length actual.length) →
        (compareWithGolden hash golden? actual).firstDiffOffset
          = some (min g.length actual.length))
    ∧ (golden? = none →
        (compareWithGolden hash golden? actual).isMatch = false
        ∧ (compareWithGolden hash golden? actual).goldenChecksum = none
        ∧ (compareWithGolden hash golden? actual).actualChecksum = hash actual) := by
  cases golden? with
  | none => simp [compareWithGolden]
  | some g =>
    by_cases hga : g = actual
    · subst hga
      refine ⟨by simp [compareWithGolden], by simp [compareWithGolden], ?_, ?_, ?_, ?_⟩
      · intro g' hg' hex
        cases Option.some.inj hg'
        rcases hex with ⟨j, _, hne⟩
        exact absurd rfl hne
      · intro g' hg' hne _
        cases Option.some.inj hg'
        exact absurd rfl hne
      · intro g' hg' hne _
        cases Option.some.inj hg'
        exact absurd rfl hne
      · intro hnone; cases hnone
    · have hh : ¬(hash g = hash actual) := fun he => hga (hinj he)
      cases heq : firstDiff g actual with
      | some p =>
        obtain ⟨i, gb, ab⟩ := p
        rcases firstDiff_some_spec g actual i gb ab heq with ⟨h1, h2, h3, h4⟩
        refine ⟨?_, ?_, ?_, ?_, ?_, ?_⟩
        · simp [compareWithGolden, if_neg hh, heq, hga]
        · intro g' hg'
          cases Option.some.inj hg'
          simp [compareWithGolden, if_neg hh, heq]
        · intro g' hg' _
          cases Option.some.inj hg'
          exact ⟨i, gb, ab, by simp [compareWithGolden, if_neg hh, heq],
            by simp [compareWithGolden, if_neg hh, heq],
            by simp [compareWithGolden, if_neg hh, heq], h1, h2, h3, h4⟩
        · intro g' hg' _ _
          cases Option.some.inj hg'
          exact ⟨i, gb, ab, by simp [compareWithGolden, if_neg hh, heq],
            by simp [compareWithGolden, if_neg hh, heq],
            by simp [compareWithGolden, if_neg hh, heq], h1, h2, h3, h4⟩
        · intro g' hg' _ htake
          cases Option.some.inj hg'
          exact absurd ((firstDiff_none_iff g actual).mpr htake) (by simp [heq])
        · intro hnone; cases hnone
      | none =>
        refine ⟨?_, ?_, ?_, ?_, ?_, ?_⟩
        · simp [compareWithGolden, if_neg hh, heq, hga]
        · intro g' hg'
          cases Option.some.inj hg'
          simp [compareWithGolden, if_neg hh, heq]
        · intro g' hg' hex
          cases Option.some.inj hg'
          rcases hex with ⟨j, hj, hjne⟩
          exact absurd heq (firstDiff_isSome_of_prefix_diff g actual j hj hjne)
        · intro g' hg' hne hlen
          cases Option.some.inj hg'
          exact absurd heq (firstDiff_isSome_of_ne g actual hlen hne)
        · intro g' hg' _ _
          cases Option.some.inj hg'
          simp [compareWithGolden, if_neg hh, heq]
        · intro hnone; cases hnone

/-- C7 witness: the match criterion instantiated with an injective hash at
golden [1,2,3] and actual [1,2,4]. -/
theorem compareWithGolden_spec_witness :
    (compareWithGolden (fun l : List Nat => l) (some [1, 2, 3]) [1, 2, 4]).isMatch = true
      ↔ (some [1, 2, 3] : Option (List Nat)) = some [1, 2, 4] :=
  (compareWithGolden_spec (fun l => l) (fun _ _ h => h) (some [1, 2, 3]) [1, 2, 4]).1

/-- C7 counterexample: with golden bytes [1] and actual bytes [2,3] the
lengths differ, yet compareWithGolden reports first-difference offset 0
together with the byte pair (1, 2), not the shorter length 1 as
claimed. -/
theorem compareWithGolden_counterexample :
    (compareWithGolden (fun l : List Nat => l) (some [1]) [2, 3]).firstDiffOffset = some 0
    ∧ (compareWithGolden (fun l : List Nat => l) (some [1]) [2, 3]).goldenByte = some 1
    ∧ (compareWithGolden (fun l : List Nat => l) (some [1]) [2, 3]).actualByte = some 2
    ∧ some 0 ≠ some (min ([1] : List Nat).length ([2, 3] : List Nat).length) := by
  refine ⟨rfl, rfl, rfl, by decide⟩

/-! ### Theorems: session-backend unsupported primitives (C8) -/

/-- C8 (amended): on the session-based backend, writeMemory, screenshot,
setBreakpoint, step, saveSnapshot and loadSnapshot throw; removeBreakpoint,
pause and resume silently succeed; listBreakpoints returns an empty list. -/
theorem dosbox_unsupported_primitives :
    (∃ m, dosboxWriteMemory = .error m) ∧ (∃ m, dosboxScreenshot = .error m)
    ∧ (∃ m, dosboxSetBreakpoint = .error m) ∧ (∃ m, dosboxStep = .error m)
    ∧ (∃ m, dosboxSaveSnapshot = .error m) ∧ (∃ m, dosboxLoadSnapshot = .error m)
    ∧ dosboxRemoveBreakpoint = .ok () ∧ dosboxPause = .ok ()
    ∧ dosboxResume = .ok () ∧ dosboxListBreakpoints = .ok [] :=
  ⟨⟨_, rfl⟩, ⟨_, rfl⟩, ⟨_, rfl⟩, ⟨_, rfl⟩, ⟨_, rfl⟩, ⟨_, rfl⟩, rfl, rfl, rfl, rfl⟩

/-- C8 counterexample: pause silently succeeds (as do resume and
removeBreakpoint, while listBreakpoints returns an empty result), refuting
the claim that every unsupported primitive raises an error. -/
theorem dosbox_unsupported_counterexample :
    dosboxPause = .ok () ∧ dosboxResume = .ok ()
    ∧ dosboxRemoveBreakpoint = .ok () ∧ dosboxListBreakpoints = .ok [] :=
  ⟨rfl, rfl, rfl, rfl⟩

/-! ### Theorems: GDB readMemory chunking (C6) -/

theorem numChunks_pos_iff (length j : Nat) :
    CHUNK_SIZE * j < length ↔ j < numChunks length := by
  simp only [numChunks, CHUNK_SIZE]
  omega

theorem gdbGo_ok (resp : Nat → Nat → List Char) (addr length : Nat) :
    ∀ k j, numChunks length - j = k →
    (∀ i, j ≤ i → i < numChunks length →
      (resp (addr + CHUNK_SIZE * i) (min CHUNK_SIZE (length - CHUNK_SIZE * i))).head?
        ≠ some 'E') →
    gdbReadMemoryGo resp addr length (CHUNK_SIZE * j)
      = ((List.range' j (numChunks length - j)).map fun i =>
            (addr + CHUNK_SIZE * i, min CHUNK_SIZE (length - CHUNK_SIZE * i)),
         .ok (((List.range' j (numChunks length - j)).map fun i =>
            hexDecode (resp (addr + CHUNK_SIZE * i)
              (min CHUNK_SIZE (length - CHUNK_SIZE * i)))).flatten)) := by
  intro k
  induction k with
  | zero =>
    intro j hk _
    have hnlt : ¬ CHUNK_SIZE * j < length := by
      rw [numChunks_pos_iff]
      omega
    rw [gdbReadMemoryGo, dif_neg hnlt, hk]
    simp
  | succ k ih =>
    intro j hk hE
    have hjn : j < numChunks length := by omega
    have hlt : CHUNK_SIZE * j < length := (numChunks_pos_iff length j).mpr hjn
    rw [gdbReadMemoryGo, dif_pos hlt]
    simp only
    rw [if_neg (hE j le_rfl hjn)]
    rw [show CHUNK_SIZE * j + CHUNK_SIZE = CHUNK_SIZE * (j + 1) by ring]
    rw [ih (j + 1) (by omega) (fun i hi hin => hE i (by omega) hin)]
    rw [show numChunks length - j = (numChunks length - (j + 1)) + 1 by omega,
      List.range'_succ]
    simp [Except.map]

theorem gdbGo_error (resp : Nat → Nat → List Char) (addr length jE : Nat)
    (hjE : jE < numChunks length)
    (hEhit : (resp (addr + CHUNK_SIZE * jE)
      (min CHUNK_SIZE (length - CHUNK_SIZE * jE))).head? = some 'E') :
    ∀ k j, jE - j = k → j ≤ jE →
    (∀ i, j ≤ i → i < jE →
      (resp (addr + CHUNK_SIZE * i) (min CHUNK_SIZE (length - CHUNK_SIZE * i))).head?
        ≠ some 'E') →
    gdbReadMemoryGo resp addr length (CHUNK_SIZE * j)
      = ((List.range' j (jE + 1 - j)).map fun i =>
            (addr + CHUNK_SIZE * i, min CHUNK_SIZE (length - CHUNK_SIZE * i)),
         .error ⟨addr + CHUNK_SIZE * jE,
           resp (addr + CHUNK_SIZE * jE) (min CHUNK_SIZE (length - CHUNK_SIZE * jE))⟩) := by
  intro k
  induction k with
  | zero =>
    intro j hk hj _
    obtain rfl : jE = j := by omega
    have hlt : CHUNK_SIZE * jE < length := (numChunks_pos_iff length jE).mpr hjE
    rw [gdbReadMemoryGo, dif_pos hlt]
    simp only
    rw [if_pos hEhit]
    have h1 : jE + 1 - jE = 1 := by omega
    rw [h1]
    simp
  | succ k ih =>
    intro j hk hj hE
    have hjlt : j < jE := by omega
    have hlt : CHUNK_SIZE * j < length :=
      (numChunks_pos_iff length j).mpr (by omega)
    rw [gdbReadMemoryGo, dif_pos hlt]
    simp only
    rw [if_neg (hE j le_rfl hjlt)]
    rw [show CHUNK_SIZE * j + CHUNK_SIZE = CHUNK_SIZE * (j + 1) by ring]
    rw [ih (j + 1) (by omega) (by omega) (fun i hi hin => hE i (by omega) hin)]
    rw [show jE + 1 - j = (jE + 1 - (j + 1)) + 1 by omega, List.range'_succ]
    simp [Except.map]

/-- C6: GdbClient.readMemory issues one m-request per CHUNK_SIZE-byte
chunk (chunk i covering addr + CHUNK_SIZE * i), at strictly increasing
addresses; with no E-replies it returns the in-order concatenation of the
decoded chunk replies; an E-prefixed reply at the first failing chunk
produces a ProtocolError naming that chunk's address; length 0 sends no
request and returns an empty buffer. -/
theorem gdbReadMemory_spec (resp : Nat → Nat → List Char) (addr length : Nat) :
    (length = 0 → gdbReadMemory resp addr length = ([], .ok []))
    ∧ ((∀ i < numChunks length,
          (resp (addr + CHUNK_SIZE * i) (min CHUNK_SIZE (length - CHUNK_SIZE * i))).head?
            ≠ some 'E') →
        gdbReadMemory resp addr length
          = ((List.range' 0 (numChunks length)).map fun i =>
                (addr + CHUNK_SIZE * i, min CHUNK_SIZE (length - CHUNK_SIZE * i)),
             .ok (((List.range' 0 (numChunks length)).map fun i =>
                hexDecode (resp (addr + CHUNK_SIZE * i)
                  (min CHUNK_SIZE (length - CHUNK_SIZE * i)))).flatten)))
    ∧ (∀ jE < numChunks length,
        (∀ i < jE,
          (resp (addr + CHUNK_SIZE * i) (min CHUNK_SIZE (length - CHUNK_SIZE * i))).head?
            ≠ some 'E') →
        (resp (addr + CHUNK_SIZE * jE)
          (min CHUNK_SIZE (length - CHUNK_SIZE * jE))).head? = some 'E' →
        gdbReadMemory resp addr length
          = ((List.range' 0 (jE + 1)).map fun i =>
                (addr + CHUNK_SIZE * i, min CHUNK_SIZE (length - CHUNK_SIZE * i)),
             .error ⟨addr + CHUNK_SIZE * jE,
               resp (addr + CHUNK_SIZE * jE)
                 (min CHUNK_SIZE (length - CHUNK_SIZE * jE))⟩))
    ∧ (gdbReadMemory resp addr length).1.Pairwise (fun p q => p.1 < q.1) := by
  have hstart : gdbReadMemory resp addr length
      = gdbReadMemoryGo resp addr length (CHUNK_SIZE * 0) := by
    rw [gdbReadMemory, Nat.mul_zero]
  have pairmap : ∀ n : Nat, ((List.range' 0 n).map fun i =>
      (addr + CHUNK_SIZE * i, min CHUNK_SIZE (length - CHUNK_SIZE * i))).Pairwise
        (fun p q : Nat × Nat => p.1 < q.1) := by
    intro n
    refine List.Pairwise.map _ ?_ (List.pairwise_lt_range' 0 n)
    intro a b hab
    simp only [CHUNK_SIZE]
    omega
  refine ⟨?_, ?_, ?_, ?_⟩
  · intro h0
    subst h0
    rw [gdbReadMemory, gdbReadMemoryGo, dif_neg (by omega)]
  · intro hE
    rw [hstart, gdbGo_ok resp addr length (numChunks length) 0 (by omega)
      (fun i _ hin => hE i hin), Nat.sub_zero]
  · intro jE hjE hpre hEhit
    rw [hstart, gdbGo_error resp addr length jE hjE hEhit jE 0 (by omega) (by omega)
      (fun i _ hiE => hpre i hiE), Nat.sub_zero]
  · by_cases hE : ∀ i < numChunks length,
        (resp (addr + CHUNK_SIZE * i) (min CHUNK_SIZE (length - CHUNK_SIZE * i))).head?
          ≠ some 'E'
    · rw [hstart, gdbGo_ok resp addr length (numChunks length) 0 (by omega)
        (fun i _ hin => hE i hin), Nat.sub_zero]
      exact pairmap _
    · push_neg at hE
      have hex : ∃ i, i < numChunks length ∧
          (resp (addr + CHUNK_SIZE * i)
            (min CHUNK_SIZE (length - CHUNK_SIZE * i))).head? = some 'E' := hE
      classical
      obtain ⟨hjn, hjEhit⟩ := Nat.find_spec hex
      have hpre : ∀ i, i < Nat.find hex →
          (resp (addr + CHUNK_SIZE * i)
            (min CHUNK_SIZE (length - CHUNK_SIZE * i))).head? ≠ some 'E' := by
        intro i hi hc
        exact Nat.find_min hex hi ⟨lt_trans hi hjn, hc⟩
      rw [hstart, gdbGo_error resp addr length (Nat.find hex) hjn hjEhit
        (Nat.find hex) 0 (by omega) (by omega) (fun i _ hiE => hpre i hiE),
        Nat.sub_zero]
      exact pairmap _

/-- C6 witness: a two-chunk read of 8192 bytes with constant reply "01"
issues exactly the requests (addr, 4096) and (addr + 4096, 4096) and
returns the two decoded bytes in order. -/
theorem gdbReadMemory_spec_witness :
    gdbReadMemory (fun _ _ => ['0', '1']) 0 8192
      = ([(0, 4096), (4096, 4096)], .ok [1, 1]) := by
  have h := (gdbReadMemory_spec (fun _ _ => ['0', '1']) 0 8192).2.1
    (fun i _ => by decide)
  rw [h]
  rfl



/-! ### Theorems: snapshot-load event ordering (C9) -/

/-- C9: loadSnapshot emits snapshot:loading strictly before issuing the
loadvm machine-control request and snapshot:loaded (success) or
snapshot:load-failed (failure) strictly after it; on failure the
load-failed event is the last action before the error is re-raised;
status is set to paused before the request and back to running only on
success. -/
theorem qemuLoadSnapshot_event_order (loadvmOk contOk : Bool) :
    (QemuAct.emitEvent "snapshot:loading" ∈ (qemuLoadSnapshotTrace loadvmOk contOk).1
      ∧ QemuAct.qmpCommand "loadvm" ∈ (qemuLoadSnapshotTrace loadvmOk contOk).1
      ∧ (qemuLoadSnapshotTrace loadvmOk contOk).1.indexOf
            (QemuAct.emitEvent "snapshot:loading")
          < (qemuLoadSnapshotTrace loadvmOk contOk).1.indexOf
            (QemuAct.qmpCommand "loadvm"))
    ∧ (qemuLoadSnapshotTrace loadvmOk contOk).1.indexOf (QemuAct.setStatus "paused")
        < (qemuLoadSnapshotTrace loadvmOk contOk).1.indexOf
          (QemuAct.qmpCommand "loadvm")
    ∧ ((qemuLoadSnapshotTrace loadvmOk contOk).2 = true →
        QemuAct.emitEvent "snapshot:loaded" ∈ (qemuLoadSnapshotTrace loadvmOk contOk).1
        ∧ (qemuLoadSnapshotTrace loadvmOk contOk).1.indexOf
              (QemuAct.qmpCommand "loadvm")
            < (qemuLoadSnapshotTrace loadvmOk contOk).1.indexOf
              (QemuAct.emitEvent "snapshot:loaded"))
    ∧ ((qemuLoadSnapshotTrace loadvmOk contOk).2 = false →
        QemuAct.emitEvent "snapshot:load-failed"
            ∈ (qemuLoadSnapshotTrace loadvmOk contOk).1
        ∧ (qemuLoadSnapshotTrace loadvmOk contOk).1.indexOf
              (QemuAct.qmpCommand "loadvm")
            < (qemuLoadSnapshotTrace loadvmOk contOk).1.indexOf
              (QemuAct.emitEvent "snapshot:load-failed")
        ∧ (qemuLoadSnapshotTrace loadvmOk contOk).1.getLast?
            = some (QemuAct.emitEvent "snapshot:load-failed"))
    ∧ ((QemuAct.setStatus "running" ∈ (qemuLoadSnapshotTrace loadvmOk contOk).1)
        ↔ (qemuLoadSnapshotTrace loadvmOk contOk).2 = true)
    ∧ ((QemuAct.emitEvent "snapshot:loaded" ∈ (qemuLoadSnapshotTrace loadvmOk contOk).1)
        ↔ (qemuLoadSnapshotTrace loadvmOk contOk).2 = true) := by
  cases loadvmOk <;> cases contOk <;> decide

/-- C9 witness: a successful load emits snapshot:loaded. -/
theorem qemuLoadSnapshot_event_order_witness :
    (qemuLoadSnapshotTrace true true).2 = true
    ∧ QemuAct.emitEvent "snapshot:loaded" ∈ (qemuLoadSnapshotTrace true true).1 :=
  ⟨rfl, ((qemuLoadSnapshot_event_order true true).2.2.1 rfl).1⟩

/-! ### Theorems: breakpoint table against the GDB stub (C5) -/

theorem lookup_perm_erase (t : List (Nat × Nat)) (id a : Nat)
    (h : t.lookup id = some a) :
    (t.map Prod.snd).Perm (a :: (t.eraseP fun p => p.1 == id).map Prod.snd) := by
  induction t with
  | nil => simp [List.lookup] at h
  | cons kv rest ih =>
    obtain ⟨k, v⟩ := kv
    by_cases hk : id = k
    · subst hk
      have hv : v = a := by simpa [List.lookup] using h
      subst hv
      simp [List.eraseP_cons]
    · have hk2 : (k == id) = false := beq_eq_false_iff_ne.mpr (Ne.symm hk)
      have hk1 : (id == k) = false := beq_eq_false_iff_ne.mpr hk
      have h2 : rest.lookup id = some a := by
        simpa [List.lookup, hk1] using h
      have := ih h2
      simp only [List.eraseP_cons, hk2, cond_false, List.map_cons]
      exact (this.cons v).trans (List.Perm.swap a v _)

theorem qemuApply_perm (s : QemuBpState) (op : QemuOp)
    (h : (s.table.map Prod.snd).Perm s.stub) :
    ((qemuApply s op).table.map Prod.snd).Perm (qemuApply s op).stub := by
  cases op with
  | set type addr stubOk =>
    simp only [qemuApply, qemuSetBreakpoint]
    split_ifs with h1 h2
    · exact h
    · simpa using h.append_right [addr]
    · exact h
  | remove id =>
    simp only [qemuApply, qemuRemoveBreakpoint]
    cases hlk : s.table.lookup id with
    | none => simpa [hlk] using h
    | some addr =>
      simp only [hlk]
      have hpe := lookup_perm_erase s.table id addr hlk
      have h1 : s.stub.Perm
          (addr :: (s.table.eraseP fun p => p.1 == id).map Prod.snd) :=
        h.symm.trans hpe
      have h2 := h1.erase addr
      rw [List.erase_cons_head] at h2
      exact h2.symm
  | load loadOk contOk =>
    simp only [qemuApply, qemuLoadSnapshotBps]
    split_ifs
    · simp
    · exact h

theorem qemuRun_perm_aux (ops : List QemuOp) : ∀ s : QemuBpState,
    (s.table.map Prod.snd).Perm s.stub →
    ((ops.foldl qemuApply s).table.map Prod.snd).Perm (ops.foldl qemuApply s).stub := by
  induction ops with
  | nil => intro s h; simpa using h
  | cons op rest ih =>
    intro s h
    rw [List.foldl_cons]
    exact ih _ (qemuApply_perm s op h)

/-- C5: after any sequence of operations on a fresh socket-based backend,
the multiset (hence the set) of addresses in the breakpoint table matches
the execution breakpoints registered in the GDB stub, and a successful
snapshot load clears both. -/
theorem qemu_breakpoint_stub_sync (ops : List QemuOp) :
    ((qemuRun ops).table.map Prod.snd).Perm (qemuRun ops).stub
    ∧ (∀ a, (∃ p ∈ (qemuRun ops).table, p.2 = a) ↔ a ∈ (qemuRun ops).stub)
    ∧ (∀ contOk, (qemuApply (qemuRun ops) (QemuOp.load true contOk)).table = []
        ∧ (qemuApply (qemuRun ops) (QemuOp.load true contOk)).stub = []) := by
  have hperm : ((qemuRun ops).table.map Prod.snd).Perm (qemuRun ops).stub := by
    unfold qemuRun
    exact qemuRun_perm_aux ops qemuInit (by simp [qemuInit])
  refine ⟨hperm, ?_, ?_⟩
  · intro a
    exact List.mem_map.symm.trans hperm.mem_iff
  · intro contOk
    simp [qemuApply, qemuLoadSnapshotBps]

/-- C5 witness: the invariant after setting two breakpoints at the same
address and removing one of them. -/
theorem qemu_breakpoint_stub_sync_witness :
    ((qemuRun [QemuOp.set BreakpointType.execution 100 true,
      QemuOp.set BreakpointType.execution 100 true,
      QemuOp.remove 1]).table.map Prod.snd).Perm
      (qemuRun [QemuOp.set BreakpointType.execution 100 true,
        QemuOp.set BreakpointType.execution 100 true,
        QemuOp.remove 1]).stub :=
  (qemu_breakpoint_stub_sync [QemuOp.set BreakpointType.execution 100 true,
    QemuOp.set BreakpointType.execution 100 true, QemuOp.remove 1]).1


/-! ### Theorems: memory-watch polling and snapshot coupling (C3) -/

theorem lookup_mem {α β : Type} [BEq α] [LawfulBEq α] (l : List (α × β)) (k : α)
    (v : β) (h : l.lookup k = some v) : (k, v) ∈ l := by
  induction l with
  | nil => simp [List.lookup] at h
  | cons kv rest ih =>
    obtain ⟨k0, v0⟩ := kv
    by_cases hk : k = k0
    · subst hk
      have hv : v0 = v := by simpa [List.lookup] using h
      subst hv
      exact List.mem_cons_self _ _
    · have hk1 : (k == k0) = false := beq_eq_false_iff_ne.mpr hk
      have h2 : rest.lookup k = some v := by simpa [List.lookup, hk1] using h
      exact List.mem_cons_of_mem _ (ih h2)

theorem lookup_map_update {H : Type} (l : List (String × Watch H)) (id : String)
    (f : Watch H → Watch H) (w : Watch H) (h : l.lookup id = some w) :
    (l.map fun p => if p.1 = id then (p.1, f p.2) else p).lookup id = some (f w) := by
  induction l with
  | nil => simp [List.lookup] at h
  | cons kv rest ih =>
    obtain ⟨k, v⟩ := kv
    by_cases hk : id = k
    · subst hk
      have hv : v = w := by simpa [List.lookup] using h
      subst hv
      simp only [List.map_cons, if_pos (show ((id, v)).1 = id from rfl)]
      simp [List.lookup]
    · have hk1 : (id == k) = false := beq_eq_false_iff_ne.mpr hk
      have h2 : rest.lookup id = some w := by simpa [List.lookup, hk1] using h
      have hne : ¬((k, v).1 = id) := fun hc => hk hc.symm
      simp only [List.map_cons, if_neg hne]
      simpa [List.lookup, hk1] using ih h2

/-- C3: a poll tick on a live watch (present, not in flight, not
suspended) with a successful read emits the memory:update metadata frame
followed by the binary payload exactly when the hash of the bytes differs
from the watch's last observed hash, recording the new hash; while
suspended a tick short-circuits with no read reported; snapshot:loading
suspends all watches without touching them; snapshot:loaded and
snapshot:load-failed resume them with every lastHash cleared, so the first
successful post-snapshot poll always emits, even for unchanged bytes. -/
theorem memoryWatch_spec {H : Type} [DecidableEq H] (hash : List Nat → H)
    (s : WatchState H) (id : String) (w : Watch H) (data : List Nat)
    (read? : Option (List Nat)) :
    (s.watches.lookup id = some w → w.inFlight = false → s.suspended = false →
      (((pollTick hash s id (some data)).2
          = [Frame.json id w.address data.length (hash data), Frame.binary data])
        ↔ some (hash data) ≠ w.lastHash)
      ∧ (some (hash data) ≠ w.lastHash →
          (pollTick hash s id (some data)).1.watches.lookup id
            = some { w with lastHash := some (hash data) })
      ∧ (some (hash data) = w.lastHash → pollTick hash s id (some data) = (s, [])))
    ∧ (s.suspended = true → pollTick hash s id read? = (s, []))
    ∧ ((onBackendEvent s "snapshot:loading").suspended = true
        ∧ (onBackendEvent s "snapshot:loading").watches = s.watches)
    ∧ (∀ ev, ev = "snapshot:loaded" ∨ ev = "snapshot:load-failed" →
        (onBackendEvent s ev).suspended = false
        ∧ ∀ p ∈ (onBackendEvent s ev).watches, p.2.lastHash = none)
    ∧ (∀ ev w', ev = "snapshot:loaded" ∨ ev = "snapshot:load-failed" →
        (onBackendEvent s ev).watches.lookup id = some w' → w'.inFlight = false →
        (pollTick hash (onBackendEvent s ev) id (some data)).2
          = [Frame.json id w'.address data.length (hash data), Frame.binary data]) := by
  have hresume : ∀ ev, ev = "snapshot:loaded" ∨ ev = "snapshot:load-failed" →
      onBackendEvent s ev = resumeAllWatches s true := by
    intro ev hev
    rcases hev with rfl | rfl <;> simp [onBackendEvent]
  refine ⟨?_, ?_, ?_, ?_, ?_⟩
  · intro hlk hif hsus
    by_cases hne : some (hash data) ≠ w.lastHash
    · have hpoll : pollTick hash s id (some data)
          = ({ s with watches := s.watches.map fun p =>
                 if p.1 = id then (p.1, { p.2 with lastHash := some (hash data) }) else p },
             [Frame.json id w.address data.length (hash data), Frame.binary data]) := by
        simp [pollTick, hlk, hif, hsus, hne]
      refine ⟨⟨fun _ => hne, fun _ => by rw [hpoll]⟩, fun _ => ?_, fun heq => absurd heq hne⟩
      rw [hpoll]
      exact lookup_map_update s.watches id
        (fun x => { x with lastHash := some (hash data) }) w hlk
    · have hpoll : pollTick hash s id (some data) = (s, []) := by
        simp [pollTick, hlk, hif, hsus, hne]
      push_neg at hne
      exact ⟨⟨fun hc => by rw [hpoll] at hc; simp at hc,
        fun hc => absurd hne hc⟩,
        fun hc => absurd hne hc, fun _ => hpoll⟩
  · intro hsus
    cases hlk : s.watches.lookup id with
    | none => simp [pollTick, hlk]
    | some w0 => simp [pollTick, hlk, hsus]
  · simp [onBackendEvent, suspendAllWatches]
  · intro ev hev
    rw [hresume ev hev]
    constructor
    · simp [resumeAllWatches, invalidateAllWatches]
    · intro p hp
      simp only [resumeAllWatches, invalidateAllWatches] at hp
      rcases List.mem_map.mp hp with ⟨q, _, rfl⟩
      rfl
  · intro ev w' hev hlk hif
    rw [hresume ev hev] at hlk ⊢
    have hlast : w'.lastHash = none := by
      have hmem := lookup_mem _ _ _ hlk
      simp only [resumeAllWatches, invalidateAllWatches] at hmem
      rcases List.mem_map.mp hmem with ⟨q, _, hq⟩
      have hsnd := congrArg (fun p => (Prod.snd p).lastHash) hq
      simpa using hsnd.symm
    have hsus2 : (resumeAllWatches s true).suspended = false := by
      simp [resumeAllWatches, invalidateAllWatches]
    simp [pollTick, hlk, hif, hsus2, hlast]

/-- C3 witness: while suspended, a tick on watch w returns without
polling. -/
theorem memoryWatch_spec_witness :
    pollTick (fun l : List Nat => l)
        { watches := [("w", { owner := 1, address := "0xB8000", size := 4
                              intervalMs := 200, lastHash := none, inFlight := false })]
          suspended := true } "w" (some [5])
      = ({ watches := [("w", { owner := 1, address := "0xB8000", size := 4
                               intervalMs := 200, lastHash := none, inFlight := false })]
           suspended := true }, []) :=
  (memoryWatch_spec (fun l => l) _ "w"
    { owner := 1, address := "0xB8000", size := 4, intervalMs := 200
      lastHash := none, inFlight := false } [5] (some [5])).2.1 rfl

/-! ### Theorems: watches on client disconnect (C4) -/

/-- C4 evaluation: client 1 subscribes to the memory channel, starts watch
w1 and disconnects; the close handler only removes the channel
subscriptions, so the watch is still registered — with its timer closure
owned by the gone client — and its next tick still polls and emits. -/
theorem watch_survives_client_disconnect :
    (onClientClose
        { watchState := startMemoryWatch
            { watches := [], suspended := false } 1 "w1" "0xB8000" 4 50
          subscriptions := [(1, "memory")] } 1
      : ServerState (List Nat)).watchState.watches.lookup "w1"
      = some { owner := 1, address := "0xB8000", size := 4, intervalMs := 200
               lastHash := none, inFlight := false }
    ∧ (onClientClose
        { watchState := startMemoryWatch
            { watches := [], suspended := false } 1 "w1" "0xB8000" 4 50
          subscriptions := [(1, "memory")] } 1
      : ServerState (List Nat)).subscriptions = []
    ∧ (pollTick (fun l : List Nat => l)
        (onClientClose
          { watchState := startMemoryWatch
              { watches := [], suspended := false } 1 "w1" "0xB8000" 4 50
            subscriptions := [(1, "memory")] } 1).watchState "w1" (some [9])).2
      = [Frame.json "w1" "0xB8000" 1 [9], Frame.binary [9]] := by
  refine ⟨by decide, by decide, by decide⟩


/-! ### Theorems: capture-pipeline pause/resume discipline (C10) -/

theorem seqSteps_err {E : Type} (a : List PipelineAct × Except E Unit)
    (k : Unit → List PipelineAct × Except E Unit) (e : E) (h : a.2 = Except.error e) :
    seqSteps a k = (a.1, Except.error e) := by
  simp [seqSteps, h]

theorem seqSteps_ok {E : Type} (a : List PipelineAct × Except E Unit)
    (k : Unit → List PipelineAct × Except E Unit) (h : a.2 = Except.ok ()) :
    seqSteps a k = (a.1 ++ (k ()).1, (k ()).2) := by
  simp [seqSteps, h]

theorem seqSteps_ok_split {E : Type} (a : List PipelineAct × Except E Unit)
    (k : Unit → List PipelineAct × Except E Unit)
    (h : (seqSteps a k).2 = Except.ok ()) :
    a.2 = Except.ok () ∧ (k ()).2 = Except.ok () := by
  cases h2 : a.2 with
  | error e => rw [seqSteps_err a k e h2] at h; simp at h
  | ok u =>
    cases u
    rw [seqSteps_ok a k h2] at h
    exact ⟨rfl, h⟩

theorem seqSteps_resume_mem {E : Type} (a : List PipelineAct × Except E Unit)
    (k : Unit → List PipelineAct × Except E Unit)
    (ha : PipelineAct.resume ∉ a.1)
    (h : PipelineAct.resume ∈ (seqSteps a k).1) :
    a.2 = Except.ok () ∧ PipelineAct.resume ∈ (k ()).1 := by
  cases h2 : a.2 with
  | error e =>
    rw [seqSteps_err a k e h2] at h
    exact absurd h ha
  | ok u =>
    cases u
    rw [seqSteps_ok a k h2] at h
    rcases List.mem_append.mp h with hm | hm
    · exact absurd hm ha
    · exact ⟨rfl, hm⟩

theorem stageSnapshot_no_resume {E : Type} (env : PipelineEnv E) (req : PipelineRequest) :
    PipelineAct.resume ∉ (stageSnapshot env req).1 := by
  unfold stageSnapshot
  cases req.snapshot <;> simp

theorem stageKeys_no_resume {E : Type} (env : PipelineEnv E) (req : PipelineRequest) :
    PipelineAct.resume ∉ (stageKeys env req).1 := by
  unfold stageKeys
  by_cases h : req.keys.isEmpty <;> simp [h]

theorem stageBreak_pause {E : Type} (env : PipelineEnv E) (req : PipelineRequest)
    (hbp : req.breakpoint = none) :
    stageBreak env req = ([PipelineAct.pause], env.pauseR) := by
  unfold stageBreak
  rw [hbp]

theorem stageFramebuffer_no_resume {E : Type} (env : PipelineEnv E)
    (req : PipelineRequest) :
    PipelineAct.resume ∉ (stageFramebuffer env req).1 := by
  unfold stageFramebuffer
  by_cases h : req.captureFramebuffer <;> simp only [h, if_true, if_false]
  · cases env.fbReadR with
    | error e => rw [seqSteps_err _ _ e rfl]; simp
    | ok u => cases u; rw [seqSteps_ok _ _ rfl]; simp
  · simp

theorem stageScreenshot_no_resume {E : Type} (env : PipelineEnv E)
    (req : PipelineRequest) :
    PipelineAct.resume ∉ (stageScreenshot env req).1 := by
  unfold stageScreenshot
  by_cases h : req.captureScreenshot <;> simp only [h, if_true, if_false]
  · cases env.screenshotR with
    | error e => rw [seqSteps_err _ _ e rfl]; simp
    | ok u => cases u; rw [seqSteps_ok _ _ rfl]; simp
  · simp

theorem stageRegisters_no_resume {E : Type} (env : PipelineEnv E)
    (req : PipelineRequest) :
    PipelineAct.resume ∉ (stageRegisters env req).1 := by
  unfold stageRegisters
  by_cases h : req.captureRegisters <;> simp only [h, if_true, if_false]
  · cases env.regReadR with
    | error e => rw [seqSteps_err _ _ e rfl]; simp
    | ok u => cases u; rw [seqSteps_ok _ _ rfl]; simp
  · simp

theorem stageRanges_no_resume {E : Type} (env : PipelineEnv E) :
    ∀ (ranges : List (String × Nat)) (idx : Nat),
    PipelineAct.resume ∉ (stageRanges env ranges idx).1 := by
  intro ranges
  induction ranges with
  | nil => intro idx; simp [stageRanges]
  | cons r rest ih =>
    intro idx
    obtain ⟨name, sz⟩ := r
    unfold stageRanges
    cases env.rangeReadR idx with
    | error e => rw [seqSteps_err _ _ e rfl]; simp
    | ok u =>
      cases u
      rw [seqSteps_ok _ _ rfl]
      cases env.writeFileR name with
      | error e => rw [seqSteps_err _ _ e rfl]; simp
      | ok u =>
        cases u
        rw [seqSteps_ok _ _ rfl]
        simp [ih (idx + 1)]

theorem pipelineRun_resume_stages {E : Type} (env : PipelineEnv E)
    (req : PipelineRequest) (hbp : req.breakpoint = none)
    (hmem : PipelineAct.resume ∈ (pipelineRun env req).1) :
    (stageSnapshot env req).2 = Except.ok ()
    ∧ (stageKeys env req).2 = Except.ok ()
    ∧ env.pauseR = Except.ok ()
    ∧ (stageFramebuffer env req).2 = Except.ok ()
    ∧ (stageScreenshot env req).2 = Except.ok ()
    ∧ (stageRegisters env req).2 = Except.ok ()
    ∧ (stageRanges env req.memoryRanges 0).2 = Except.ok () := by
  unfold pipelineRun at hmem
  obtain ⟨h1, hmem⟩ := seqSteps_resume_mem _ _ (stageSnapshot_no_resume env req) hmem
  obtain ⟨h2, hmem⟩ := seqSteps_resume_mem _ _ (stageKeys_no_resume env req) hmem
  obtain ⟨h3, hmem⟩ := seqSteps_resume_mem _ _
    (by rw [stageBreak_pause env req hbp]; simp) hmem
  obtain ⟨h4, hmem⟩ := seqSteps_resume_mem _ _ (stageFramebuffer_no_resume env req) hmem
  obtain ⟨h5, hmem⟩ := seqSteps_resume_mem _ _ (stageScreenshot_no_resume env req) hmem
  obtain ⟨h6, hmem⟩ := seqSteps_resume_mem _ _ (stageRegisters_no_resume env req) hmem
  obtain ⟨h7, hmem⟩ := seqSteps_resume_mem _ _ (stageRanges_no_resume env _ 0) hmem
  rw [stageBreak_pause env req hbp] at h3
  exact ⟨h1, h2, h3, h4, h5, h6, h7⟩

theorem pipelineRun_ok_eq {E : Type} (env : PipelineEnv E) (req : PipelineRequest)
    (h1 : (stageSnapshot env req).2 = Except.ok ())
    (h2 : (stageKeys env req).2 = Except.ok ())
    (h3 : (stageBreak env req).2 = Except.ok ())
    (h4 : (stageFramebuffer env req).2 = Except.ok ())
    (h5 : (stageScreenshot env req).2 = Except.ok ())
    (h6 : (stageRegisters env req).2 = Except.ok ())
    (h7 : (stageRanges env req.memoryRanges 0).2 = Except.ok ()) :
    pipelineRun env req
      = ((stageSnapshot env req).1 ++ ((stageKeys env req).1 ++ ((stageBreak env req).1
          ++ ((stageFramebuffer env req).1 ++ ((stageScreenshot env req).1
          ++ ((stageRegisters env req).1 ++ ((stageRanges env req.memoryRanges 0).1
          ++ [PipelineAct.resume])))))),
         env.resumeR) := by
  unfold pipelineRun
  rw [seqSteps_ok _ _ h1, seqSteps_ok _ _ h2, seqSteps_ok _ _ h3, seqSteps_ok _ _ h4,
    seqSteps_ok _ _ h5, seqSteps_ok _ _ h6, seqSteps_ok _ _ h7]

/-- C10: when CapturePipeline.run takes the no-breakpoint branch (so it
pauses the backend) and the final resume itself would succeed, an error in
any step after the pause propagates with the final resume never executed
(the backend stays paused); the resume is executed — as the last action —
exactly when every preceding step succeeds. -/
theorem capturePipeline_resume_only_on_success {E : Type} (env : PipelineEnv E)
    (req : PipelineRequest) (hbp : req.breakpoint = none)
    (hres : env.resumeR = Except.ok ()) :
    (∀ e : E, (pipelineRun env req).2 = Except.error e →
        PipelineAct.resume ∉ (pipelineRun env req).1)
    ∧ ((pipelineRun env req).2 = Except.ok () →
        (pipelineRun env req).1.getLast? = some PipelineAct.resume)
    ∧ ((PipelineAct.resume ∈ (pipelineRun env req).1)
        ↔ (pipelineRun env req).2 = Except.ok ()) := by
  have hforward : PipelineAct.resume ∈ (pipelineRun env req).1 →
      (pipelineRun env req).2 = Except.ok () := by
    intro hmem
    obtain ⟨h1, h2, h3, h4, h5, h6, h7⟩ := pipelineRun_resume_stages env req hbp hmem
    have h3b : (stageBreak env req).2 = Except.ok () := by
      rw [stageBreak_pause env req hbp]; exact h3
    rw [pipelineRun_ok_eq env req h1 h2 h3b h4 h5 h6 h7]
    exact hres
  have hback : (pipelineRun env req).2 = Except.ok () →
      pipelineRun env req
        = ((stageSnapshot env req).1 ++ ((stageKeys env req).1 ++ ((stageBreak env req).1
            ++ ((stageFramebuffer env req).1 ++ ((stageScreenshot env req).1
            ++ ((stageRegisters env req).1 ++ ((stageRanges env req.memoryRanges 0).1
            ++ [PipelineAct.resume])))))),
           env.resumeR) := by
    intro hok
    unfold pipelineRun at hok
    obtain ⟨h1, hok⟩ := seqSteps_ok_split _ _ hok
    obtain ⟨h2, hok⟩ := seqSteps_ok_split _ _ hok
    obtain ⟨h3, hok⟩ := seqSteps_ok_split _ _ hok
    obtain ⟨h4, hok⟩ := seqSteps_ok_split _ _ hok
    obtain ⟨h5, hok⟩ := seqSteps_ok_split _ _ hok
    obtain ⟨h6, hok⟩ := seqSteps_ok_split _ _ hok
    obtain ⟨h7, hok⟩ := seqSteps_ok_split _ _ hok
    exact pipelineRun_ok_eq env req h1 h2 h3 h4 h5 h6 h7
  refine ⟨?_, ?_, ?_⟩
  · intro e herr hmem
    rw [hforward hmem] at herr
    cases herr
  · intro hok
    rw [hback hok]
    simp
  · constructor
    · exact hforward
    · intro hok
      rw [hback hok]
      simp

/-- C10 witness: with a failing screenshot in the no-breakpoint branch,
the trace never reaches the final resume. -/
theorem capturePipeline_resume_witness :
    PipelineAct.resume ∉ (pipelineRun
      { loadSnapshotR := Except.ok (), sendKeysR := Except.ok ()
        setBreakpointR := Except.ok (), resumeR := Except.ok ()
        waitStopR := Except.ok (), removeBreakpointR := Except.ok ()
        pauseR := Except.ok (), fbReadR := Except.ok ()
        screenshotR := Except.error "screendump failed"
        regReadR := Except.ok (), rangeReadR := fun _ => Except.ok ()
        writeFileR := fun _ => Except.ok () }
      { snapshot := none, keys := [], breakpoint := none
        captureFramebuffer := true, captureScreenshot := true
        captureRegisters := true, memoryRanges := [] }).1 :=
  (capturePipeline_resume_only_on_success _ _ rfl rfl).1 "screendump failed" rfl

end DosProbe
